import Mathlib

/-!
Formal model of the django-pyref bibliographic-reference core.

Strings are modelled as lists of characters (a Python str is a sequence of
code points).  Each definition below is a direct translation of a function
of the repository: refs/utils.py, refs/models.py, src/refs/xsams_utils.py,
and the two copies of the XSAMS generator module
(refs/xsams_generators.py, the legacy one, and src/refs/xsams_generators.py,
the packaged one).  Operations that a Python program performs with built-in
str/list methods (strip, split, title, join, xml escaping, percent quoting)
are modelled by the small helper functions of the first section.
Fallible Python code (exceptions such as ValueError on tuple unpacking,
IndexError, KeyError) is modelled with Option, none meaning an exception.
-/

/-- The character list denoted by a string literal. -/
def chars (s : String) : List Char := s.data

/-- Python decimal rendering of a natural number. -/
def natChars (n : Nat) : List Char := (Nat.repr n).data

/-- Python decimal rendering of an integer. -/
def intChars (i : Int) : List Char := (toString i).data

/-- Python truthiness choice on strings: a or b. -/
def pyOr (a b : List Char) : List Char := if a = [] then b else a

/-- Python str.strip(): drop trailing then leading whitespace (ASCII model). -/
def pyStrip (s : List Char) : List Char :=
  List.dropWhile Char.isWhitespace
    (List.reverse (List.dropWhile Char.isWhitespace (List.reverse s)))

/-- Helper for pySplitWhite: accumulate the current word (reversed). -/
def pySplitWhiteGo : List Char → List Char → List (List Char)
  | [], acc => if acc = [] then [] else [acc.reverse]
  | c :: cs, acc =>
    if c.isWhitespace then
      if acc = [] then pySplitWhiteGo cs [] else acc.reverse :: pySplitWhiteGo cs []
    else pySplitWhiteGo cs (c :: acc)

/-- Python str.split() with no argument: split on whitespace runs, no empties. -/
def pySplitWhite (s : List Char) : List (List Char) := pySplitWhiteGo s []

/-- Python str.title() (ASCII model): a letter after a non-letter is
uppercased, a letter after a letter is lowercased. -/
def pyTitleGo : Bool → List Char → List Char
  | _, [] => []
  | prevAlpha, c :: cs =>
    if c.isAlpha then
      (if prevAlpha then c.toLower else c.toUpper) :: pyTitleGo true cs
    else c :: pyTitleGo false cs

/-- Python str.title() (ASCII model). -/
def pyTitle (s : List Char) : List Char := pyTitleGo false s

/-- xml.sax.saxutils.escape with default entities. -/
def xmlEscape : List Char → List Char
  | [] => []
  | '&' :: cs => chars "&amp;" ++ xmlEscape cs
  | '<' :: cs => chars "&lt;" ++ xmlEscape cs
  | '>' :: cs => chars "&gt;" ++ xmlEscape cs
  | c :: cs => c :: xmlEscape cs

/-- Python replace of every newline by a space, as in title.replace. -/
def replaceNewlineBySpace (s : List Char) : List Char :=
  s.map (fun c => if c = '\n' then ' ' else c)

/-- Python journal.replace of an ampersand by the word and. -/
def replaceAmpByAnd : List Char → List Char
  | [] => []
  | '&' :: cs => chars "and" ++ replaceAmpByAnd cs
  | c :: cs => c :: replaceAmpByAnd cs

/-- Upper-case hexadecimal digit, as produced by urllib percent quoting. -/
def hexDigitChar (n : Nat) : Char :=
  if n < 10 then Char.ofNat (48 + n) else Char.ofNat (55 + n)

/-- UTF-8 bytes of one character. -/
def utf8Bytes (c : Char) : List Nat :=
  let n := c.toNat
  if n < 128 then [n]
  else if n < 2048 then [192 + n / 64, 128 + n % 64]
  else if n < 65536 then [224 + n / 4096, 128 + n / 64 % 64, 128 + n % 64]
  else [240 + n / 262144, 128 + n / 4096 % 64, 128 + n / 64 % 64, 128 + n % 64]

/-- A percent-escaped byte. -/
def percentByte (b : Nat) : List Char :=
  ['%', hexDigitChar (b / 16), hexDigitChar (b % 16)]

/-- The safe characters passed by the generator to urllib.parse.quote,
together with the characters quote never touches (letters, digits, and
underscore, dot, hyphen, tilde).  Char.ofNat 39 is the apostrophe. -/
def quoteKeeps (c : Char) : Bool :=
  c.isAlphanum || c = '_' || c = '.' || c = '-' || c = '~' ||
    (chars "%:=/?~#+!$,;" ++ [Char.ofNat 39] ++ chars "@()*").contains c

/-- urllib.parse.quote with the safe set used by the XSAMS generator. -/
def pyQuote (s : List Char) : List Char :=
  (s.map (fun c =>
    if quoteKeeps c then [c] else ((utf8Bytes c).map percentByte).flatten)).flatten

/-- Boolean test that pat begins the list, as a Python startswith. -/
def startsWith : List Char → List Char → Bool
  | [], _ => true
  | _ :: _, [] => false
  | a :: as, b :: bs => a == b && startsWith as bs

/-- Python substring containment, the in operator on strings. -/
def containsSub (pat : List Char) : List Char → Bool
  | [] => startsWith pat []
  | c :: cs => startsWith pat (c :: cs) || containsSub pat cs

/- ===== refs/utils.py ===== -/

/-- utils.ensure_https. -/
def ensure_https (url : List Char) : List Char :=
  if startsWith (chars "https") url then url
  else if startsWith (chars "http") url then chars "https" ++ url.drop 4
  else chars "https://" ++ url

/-- utils.canonicalize_doi: re.sub of an anchored pattern removes at most one
leading match of http(s . )://(dx.)?doi.org/ from the front of the string.
The four alternatives are mutually exclusive, so the test order is
irrelevant. -/
def canonicalize_doi (s : List Char) : List Char :=
  if startsWith (chars "https://dx.doi.org/") s then s.drop 19
  else if startsWith (chars "https://doi.org/") s then s.drop 16
  else if startsWith (chars "http://dx.doi.org/") s then s.drop 18
  else if startsWith (chars "http://doi.org/") s then s.drop 15
  else s

/-- Whether the anchored doi-url pattern of canonicalize_doi matches. -/
def hasDoiUrlStart (s : List Char) : Bool :=
  startsWith (chars "https://dx.doi.org/") s ||
  startsWith (chars "https://doi.org/") s ||
  startsWith (chars "http://dx.doi.org/") s ||
  startsWith (chars "http://doi.org/") s

/- ===== refs/models.py : the Ref data model ===== -/

/-- The Ref model: a literature reference.  Django CharField/TextField
columns are always strings (blank allowed, never null), the year column is
nullable, and the primary key id is assigned by the store. -/
structure Ref where
  id : Nat
  authors : List Char
  title : List Char
  title_html : List Char
  title_latex : List Char
  journal : List Char
  volume : List Char
  page_start : List Char
  page_end : List Char
  article_number : List Char
  year : Option Int
  note : List Char
  note_html : List Char
  note_latex : List Char
  doi : List Char
  bibcode : List Char
  url : List Char
deriving DecidableEq

/-- A Ref as Django constructs it with no field arguments. -/
def emptyRef : Ref :=
  { id := 0, authors := [], title := [], title_html := [], title_latex := [],
    journal := [], volume := [], page_start := [], page_end := [],
    article_number := [], year := none, note := [], note_html := [],
    note_latex := [], doi := [], bibcode := [], url := [] }

/-- The class attribute Ref.source_type. -/
def refSourceType : List Char := chars "article"

/-- Ref.qualified_id: the primary key prefixed with the letter B. -/
def Ref.qualified_id (r : Ref) : List Char := 'B' :: natChars r.id

/-- Ref._get_or_missing for a string field. -/
def get_or_missing (value fieldName : List Char) : List Char :=
  if value = [] then chars "[missing " ++ fieldName ++ chars "]" else value

/-- Ref.authors_list: comma split, each entry stripped. -/
def Ref.authors_list (r : Ref) : List (List Char) :=
  (r.authors.splitOn ',').map pyStrip

/-- Ref.shorten_authors(nmax, nret).  The fragments come straight from a
comma split, with no whitespace stripping. -/
def Ref.shorten_authors (r : Ref) (nmax : Option Nat) (nret : Nat) : List Char :=
  match nmax with
  | none => r.authors
  | some m =>
    if r.authors = [] then []
    else
      let frags := r.authors.splitOn ','
      if frags.length = 1 then r.authors
      else if frags.length > m then
        List.intercalate (chars ", ") (frags.take nret) ++ chars " et al."
      else
        List.intercalate (chars ", ") (frags.take (frags.length - 1)) ++
          chars " and " ++ frags.getLastD []

/-- Ref._make_url_html with an explicit s_url argument. -/
def Ref.make_url_html_with (r : Ref) (s_url : List Char) : List Char :=
  if s_url ≠ [] then
    chars "<span class=\"noprint\"> [<a href=\"" ++ s_url ++ chars "\">" ++
      pyOr r.doi s_url ++ chars "</a>]</span>"
  else []

/-- Ref._make_url_html with its default argument, the url field. -/
def Ref.make_url_html (r : Ref) : List Char := r.make_url_html_with r.url

/-- Ref._make_url_html_from_doi. -/
def Ref.make_url_html_from_doi (r : Ref) : List Char :=
  if r.doi ≠ [] then r.make_url_html_with (chars "https://dx.doi.org/" ++ r.doi)
  else []

/-- Ref._get_html_title. -/
def Ref.get_html_title (r : Ref) : List Char :=
  pyOr r.title_html (get_or_missing r.title (chars "title"))

/-- Ref.html_article(pk, authors_nmax): the HTML rendering of the record. -/
def Ref.html_article (r : Ref) (pk : Bool) (authors_nmax : Option Nat) : List Char :=
  let s_pk := if pk then 'B' :: natChars r.id ++ chars ": " else []
  let s_authors0 := r.shorten_authors authors_nmax 1
  let s_authors := if s_authors0 ≠ [] then s_authors0 ++ chars ", " else s_authors0
  let s_title := '"' :: (r.get_html_title ++ ['"'])
  let s_journal := chars "<em>" ++ get_or_missing r.journal (chars "journal") ++ chars "</em>"
  let s_volume := if r.volume ≠ [] then chars " <b>" ++ r.volume ++ chars "</b>" else []
  let s_pages0 :=
    if r.page_start ≠ [] then
      if r.page_end ≠ [] then chars ", " ++ r.page_start ++ '-' :: r.page_end
      else chars ", " ++ r.page_start
    else [' ']
  let pagesAndArticle : List Char × List Char :=
    if r.article_number ≠ [] then ([], chars ", " ++ r.article_number ++ [' '])
    else if s_pages0 ≠ [' '] then (s_pages0, [])
    else (s_pages0, [' '])
  let s_year := match r.year with
    | none => []
    | some y => if y = 0 then [] else '(' :: (intChars y ++ [')'])
  let s_url := pyOr r.make_url_html r.make_url_html_from_doi
  s_pk ++ s_authors ++ s_title ++ chars ", " ++ s_journal ++ s_volume ++
    pagesAndArticle.1 ++ pagesAndArticle.2 ++ ' ' :: (s_year ++ chars ". " ++ s_url)

/-- A value of the dict produced by Ref.serialize. -/
inductive SVal where
  | s : List Char → SVal
  | i : Int → SVal
  | l : List (List Char) → SVal
deriving DecidableEq

/-- utils.add_optional_kv for a string attribute: a binding appears only
when the value is non-empty. -/
def add_optional_kv (k : List Char) (v : List Char) : List (List Char × SVal) :=
  if v ≠ [] then [(k, SVal.s v)] else []

/-- Ref.serialize: the exported dict, as an ordered association list. -/
def Ref.serialize (r : Ref) : List (List Char × SVal) :=
  [(chars "qid", SVal.s r.qualified_id), (chars "source-type", SVal.s refSourceType)]
  ++ (if r.authors ≠ [] then [(chars "authors", SVal.l r.authors_list)] else [])
  ++ add_optional_kv (chars "title") r.title
  ++ add_optional_kv (chars "journal") r.journal
  ++ add_optional_kv (chars "volume") r.volume
  ++ add_optional_kv (chars "page-start") r.page_start
  ++ add_optional_kv (chars "page-end") r.page_end
  ++ add_optional_kv (chars "article-number") r.article_number
  ++ (match r.year with | none => [] | some y => [(chars "year", SVal.i y)])
  ++ add_optional_kv (chars "note") r.note
  ++ add_optional_kv (chars "doi") r.doi
  ++ add_optional_kv (chars "bibcode") r.bibcode
  ++ add_optional_kv (chars "url") r.url

/-- The keys present in the serialized dict, in order. -/
def Ref.serializeKeys (r : Ref) : List (List Char) := r.serialize.map Prod.fst

/- ===== refs/models.py : citeproc parsing ===== -/

/-- One entry of the author array of a citeproc document; each field is
present or absent. -/
structure CpdAuthor where
  family : Option (List Char)
  given : Option (List Char)
  name : Option (List Char)
deriving DecidableEq

/-- A citeproc document, restricted to the fields parse_citeproc_json
reads.  container_title stands for the container-title key,
article_number for article-number, issued for issued.date-parts. -/
structure Cpd where
  type : List Char
  author : Option (List CpdAuthor)
  title : Option (List Char)
  container_title : Option (List Char)
  volume : Option (List Char)
  page : Option (List Char)
  article_number : Option (List Char)
  doi : Option (List Char)
  url : Option (List Char)
  issued : Option (List (List Int))
deriving DecidableEq

/-- The name string built by one loop iteration of get_citeproc_authors;
none models the exceptions the loop body can raise (KeyError when both
family and name are absent, IndexError when given splits to no tokens). -/
def cite_author_name (a : CpdAuthor) : Option (List Char) :=
  match a.family with
  | none => a.name
  | some fam =>
    let family := pyTitle fam
    match a.given with
    | none => some family
    | some given =>
      match pySplitWhite given with
      | [] => none
      | t :: ts =>
        match t with
        | [] => none
        | c0 :: _ =>
          some (List.intercalate [' '] ((c0 :: chars ".") :: ts) ++ ' ' :: family)

/-- get_citeproc_authors over a non-None author array. -/
def get_citeproc_authors (la : List CpdAuthor) : Option (List Char) :=
  (la.mapM cite_author_name).map (List.intercalate (chars ", "))

/-- Python containment test for a double hyphen. -/
def hasDoubleHyphen : List Char → Bool
  | '-' :: '-' :: _ => true
  | _ :: cs => hasDoubleHyphen cs
  | [] => false

/-- Python str.split on the two-character separator of two hyphens. -/
def splitDoubleHyphen : List Char → List (List Char)
  | '-' :: '-' :: cs => [] :: splitDoubleHyphen cs
  | c :: cs =>
    match splitDoubleHyphen cs with
    | [] => [[c]]
    | r :: rs => (c :: r) :: rs
  | [] => [[]]

/-- The page-range logic of parse_citeproc_json on the page field.  none
models the ValueError raised by the two-name tuple unpacking when the
double-hyphen split yields a number of fragments other than two. -/
def parse_pages (page : List Char) : Option (List Char × List Char) :=
  if page = [] then some (page, [])
  else if hasDoubleHyphen page then
    match splitDoubleHyphen page with
    | [a, b] => some (a, b)
    | _ => none
  else
    let n := page.count '-'
    if n % 2 = 1 then
      let f := page.splitOn '-'
      some (List.intercalate ['-'] (f.take (n / 2 + 1)),
            List.intercalate ['-'] (f.drop (n / 2 + 1)))
    else some (page, [])

/-- The year lookup issued.date-parts[0][0] of parse_citeproc_json, with
KeyError and IndexError giving no year. -/
def citeprocYear (issued : Option (List (List Int))) : Option Int :=
  match issued with
  | none => none
  | some [] => none
  | some (ys :: _) => ys.head?

/-- parse_citeproc_json with query_ads disabled: build or overwrite a Ref
from a parsed citeproc document.  ref is the record to update, or none to
build a fresh one; both branches assign the same fields.  none models an
exception: an unsupported document type, an author-entry failure, or a
page-field unpacking failure. -/
def parse_citeproc_json (cpd : Cpd) (ref : Option Ref) : Option Ref :=
  if cpd.type ≠ chars "article-journal" then none
  else
    match (match cpd.author with
           | none => some []
           | some la => get_citeproc_authors la) with
    | none => none
    | some authors =>
      match parse_pages (cpd.page.getD []) with
      | none => none
      | some (ps, pe) =>
        some { ref.getD emptyRef with
          authors := authors,
          title := replaceNewlineBySpace (cpd.title.getD []),
          journal := cpd.container_title.getD [],
          volume := cpd.volume.getD [],
          year := citeprocYear cpd.issued,
          page_start := ps,
          page_end := pe,
          doi := cpd.doi.getD [],
          url := ensure_https (cpd.url.getD []),
          article_number := cpd.article_number.getD [] }

/- ===== src/refs/xsams_utils.py ===== -/

/-- make_xsams_id(letter, id): letter, node id, hyphen, then the number.
The node identifier comes from the xsams_settings configuration module and
is kept as a parameter. -/
def make_xsams_id (nodeid : List Char) (letter : List Char) (id : Nat) : List Char :=
  letter ++ nodeid ++ '-' :: natChars id

/-- make_attrs_string: space-joined name="value" pairs. -/
def make_attrs_string (attrs : List (List Char × List Char)) : List Char :=
  List.intercalate [' '] (attrs.map (fun a => a.1 ++ '=' :: '"' :: (a.2 ++ ['"'])))

/-- make_mandatory_tag: the default replaces the contents only when the
contents is None; the tag is always emitted. -/
def make_mandatory_tag (tag : List Char) (contents : Option (List Char))
    (dflt : List Char) (attrs : List (List Char × List Char)) : List Char :=
  let c := match contents with | none => dflt | some c => c
  '<' :: tag ++ ' ' :: make_attrs_string attrs ++ '>' :: c ++ '<' :: '/' :: tag ++ ['>']

/-- make_optional_tag: the empty string when the contents is None,
otherwise the element, even when the contents is the empty string. -/
def make_optional_tag (tag : List Char) (contents : Option (List Char))
    (attrs : List (List Char × List Char)) : List Char :=
  match contents with
  | none => []
  | some c =>
    '<' :: tag ++ ' ' :: make_attrs_string attrs ++ '>' :: c ++ '<' :: '/' :: tag ++ ['>']

/-- xsams_source_type: the fixed category lookup. -/
def xsams_source_type (st : List Char) : List Char :=
  if st = chars "article" then chars "journal" else st

/- ===== the two xsams_generators.py copies : xsams_source ===== -/

/-- xsams_source of the packaged module src/refs/xsams_generators.py: the
list of yielded fragments for one Ref.  Every Django string field is a
string (never None), so each optional tag receives a some contents. -/
def xsams_source (nodeid : List Char) (r : Ref) : List (List Char) :=
  (chars "<Source sourceID=\"" ++ make_xsams_id nodeid (chars "B") r.id ++ chars "\">")
  :: (if r.note ≠ [] then [chars "<Comments>" ++ xmlEscape r.note ++ chars "</Comments>"] else [])
  ++ [chars "<Authors>"]
  ++ r.authors_list.map (fun a => chars "<Author><Name>" ++ a ++ chars "</Name></Author>")
  ++ [chars "</Authors>",
      make_mandatory_tag (chars "Title") (some (xmlEscape r.title))
        (chars "[This source does not have a title]") [],
      make_mandatory_tag (chars "Category") (some (xsams_source_type refSourceType)) [] [],
      make_mandatory_tag (chars "Year") (r.year.map intChars) (chars "9999") [],
      make_optional_tag (chars "SourceName") (some (replaceAmpByAnd r.journal)) [],
      make_optional_tag (chars "Volume") (some r.volume) [],
      make_optional_tag (chars "PageBegin") (some r.page_start) [],
      make_optional_tag (chars "PageEnd") (some r.page_end) [],
      make_optional_tag (chars "ArticleNumber") (some r.article_number) [],
      make_optional_tag (chars "UniformResourceIdentifier") (some (pyQuote r.url)) [],
      make_optional_tag (chars "DigitalObjectIdentifier") (some r.doi) [],
      chars "</Source>\n"]

/-- xsams_source of the legacy module refs/xsams_generators.py: identical
except that the Source open tag appends a stray letter s after the id
built by make_xsams_id, and the journal ampersand replacement is absent. -/
def xsams_source_legacy (nodeid : List Char) (r : Ref) : List (List Char) :=
  (chars "<Source sourceID=\"" ++ make_xsams_id nodeid (chars "B") r.id ++ chars "s\">")
  :: (if r.note ≠ [] then [chars "<Comments>" ++ xmlEscape r.note ++ chars "</Comments>"] else [])
  ++ [chars "<Authors>"]
  ++ r.authors_list.map (fun a => chars "<Author><Name>" ++ a ++ chars "</Name></Author>")
  ++ [chars "</Authors>",
      make_mandatory_tag (chars "Title") (some (xmlEscape r.title))
        (chars "[This source does not have a title]") [],
      make_mandatory_tag (chars "Category") (some (xsams_source_type refSourceType)) [] [],
      make_mandatory_tag (chars "Year") (r.year.map intChars) (chars "9999") [],
      make_optional_tag (chars "SourceName") (some r.journal) [],
      make_optional_tag (chars "Volume") (some r.volume) [],
      make_optional_tag (chars "PageBegin") (some r.page_start) [],
      make_optional_tag (chars "PageEnd") (some r.page_end) [],
      make_optional_tag (chars "ArticleNumber") (some r.article_number) [],
      make_optional_tag (chars "UniformResourceIdentifier") (some (pyQuote r.url)) [],
      make_optional_tag (chars "DigitalObjectIdentifier") (some r.doi) [],
      chars "</Source>\n"]

/-- xsams_sources of the packaged module. -/
def xsams_sources (nodeid : List Char) (refs : List Ref) : List (List Char) :=
  chars "<Sources>\n" :: (refs.map (xsams_source nodeid)).flatten ++ [chars "</Sources>\n"]

/-- xsams_sources of the legacy module. -/
def xsams_sources_legacy (nodeid : List Char) (refs : List Ref) : List (List Char) :=
  chars "<Sources>\n" :: (refs.map (xsams_source_legacy nodeid)).flatten ++ [chars "</Sources>\n"]

/- ===== general lemmas about the string-helper embedding ===== -/

theorem intercalate_cons₂ (x : Char) (a b : List Char) (l : List (List Char)) :
    List.intercalate [x] (a :: b :: l) = a ++ x :: List.intercalate [x] (b :: l) := by
  simp [List.intercalate, List.intersperse]

theorem intercalate_modifyHead (x c : Char) (hd : List Char) (tl : List (List Char)) :
    List.intercalate [x] ((c :: hd) :: tl) = c :: List.intercalate [x] (hd :: tl) := by
  cases tl with
  | nil => simp [List.intercalate, List.intersperse]
  | cons t ts => rw [intercalate_cons₂, intercalate_cons₂]; simp

/-- Joining a single-character split with that character restores the string. -/
theorem intercalate_splitOn_eq (x : Char) (s : List Char) :
    List.intercalate [x] (s.splitOn x) = s := by
  induction s with
  | nil => simp [List.splitOn, List.intercalate]
  | cons c cs ih =>
    simp only [List.splitOn] at *
    rw [List.splitOnP_cons]
    by_cases h : c = x
    · subst h
      simp only [beq_self_eq_true, if_pos]
      cases hsp : cs.splitOnP (· == c) with
      | nil => exact absurd hsp (List.splitOnP_ne_nil _ cs)
      | cons hd tl =>
        rw [hsp] at ih
        rw [intercalate_cons₂]
        simp [ih]
    · have hb : (c == x) = false := by simp [h]
      simp only [hb, if_neg, Bool.false_eq_true, not_false_iff]
      cases hsp : cs.splitOnP (· == x) with
      | nil => exact absurd hsp (List.splitOnP_ne_nil _ cs)
      | cons hd tl =>
        rw [hsp] at ih
        simp only [List.modifyHead]
        rw [intercalate_modifyHead, ih]

theorem splitOnP_sep_not_mem (p : Char → Bool) (xs : List Char) :
    ∀ l ∈ xs.splitOnP p, ∀ a ∈ l, ¬ p a = true := by
  induction xs with
  | nil => simp
  | cons c cs ih =>
    rw [List.splitOnP_cons]
    by_cases h : p c
    · simp only [if_pos h]
      intro l hl
      rcases List.mem_cons.mp hl with h1 | h1
      · subst h1; simp
      · exact ih l h1
    · simp only [if_neg h]
      cases hsp : cs.splitOnP p with
      | nil => exact absurd hsp (List.splitOnP_ne_nil p cs)
      | cons hd tl =>
        simp only [List.modifyHead]
        intro l hl
        rcases List.mem_cons.mp hl with h1 | h1
        · subst h1
          intro a ha
          rcases List.mem_cons.mp ha with h2 | h2
          · subst h2; exact h
          · exact ih hd (hsp ▸ List.mem_cons_self hd tl) a h2
        · exact ih l (hsp ▸ List.mem_cons_of_mem hd h1)

/-- The separator never occurs inside a fragment of a split. -/
theorem splitOn_sep_not_mem (x : Char) (xs : List Char) :
    ∀ l ∈ xs.splitOn x, x ∉ l := by
  intro l hl hx
  have := splitOnP_sep_not_mem (· == x) xs l hl x hx
  simp at this

/-- Counting the separator in a join of separator-free fragments. -/
theorem count_intercalate (x : Char) (ls : List (List Char)) (hne : ls ≠ [])
    (hfree : ∀ l ∈ ls, x ∉ l) :
    (List.intercalate [x] ls).count x = ls.length - 1 := by
  induction ls with
  | nil => exact absurd rfl hne
  | cons a l ih =>
    cases l with
    | nil =>
      simp only [List.intercalate, List.intersperse, List.flatten]
      have : a.count x = 0 := List.count_eq_zero.mpr (hfree a (by simp))
      simp [this]
    | cons b l' =>
      rw [intercalate_cons₂]
      have ha : a.count x = 0 := List.count_eq_zero.mpr (hfree a (by simp))
      have ih' := ih (by simp) (fun l hl => hfree l (List.mem_cons_of_mem a hl))
      rw [List.count_append, List.count_cons]
      simp only [ha, ih', List.length_cons]
      simp

/-- A join split anywhere between fragments restores the full join. -/
theorem intercalate_take_drop (x : Char) (ls : List (List Char)) (k : Nat)
    (h1 : 0 < k) (h2 : k < ls.length) :
    List.intercalate [x] (ls.take k) ++ x :: List.intercalate [x] (ls.drop k) =
      List.intercalate [x] ls := by
  induction ls generalizing k with
  | nil => simp at h2
  | cons a l ih =>
    cases k with
    | zero => omega
    | succ j =>
      cases j with
      | zero =>
        cases l with
        | nil => simp at h2
        | cons b l' =>
          simp only [List.take_succ_cons, List.take_zero, List.drop_succ_cons,
            List.drop_zero]
          rw [intercalate_cons₂]
          simp [List.intercalate, List.intersperse]
      | succ j' =>
        obtain ⟨b, l', rfl⟩ : ∃ b l', l = b :: l' := by
          cases l with
          | nil => simp at h2
          | cons b l' => exact ⟨b, l', rfl⟩
        have hlen : j' + 1 < (b :: l').length := by
          simp only [List.length_cons] at h2 ⊢; omega
        have ih' := ih (j' + 1) (Nat.succ_pos j') hlen
        simp only [List.take_succ_cons, List.drop_succ_cons] at ih' ⊢
        rw [intercalate_cons₂ x a b (List.take j' l'), intercalate_cons₂ x a b l']
        rw [List.append_assoc, List.cons_append, ih']

/-- The fragment count of a split is the separator count plus one. -/
theorem length_splitOn (x : Char) (s : List Char) :
    (s.splitOn x).length = s.count x + 1 := by
  have hne : s.splitOn x ≠ [] := by
    simp only [List.splitOn]
    exact List.splitOnP_ne_nil _ s
  have h1 : (List.intercalate [x] (s.splitOn x)).count x = (s.splitOn x).length - 1 :=
    count_intercalate x _ hne (splitOn_sep_not_mem x s)
  rw [intercalate_splitOn_eq] at h1
  have h2 : (s.splitOn x).length ≠ 0 := fun h => hne (List.eq_nil_of_length_eq_zero h)
  omega

/-- A double hyphen in the string forces at least one hyphen. -/
theorem count_pos_of_hasDD (s : List Char) (h : hasDoubleHyphen s = true) :
    0 < s.count '-' := by
  induction s with
  | nil => simp [hasDoubleHyphen] at h
  | cons c cs ih =>
    unfold hasDoubleHyphen at h
    split at h
    · rename_i t heq
      injection heq with h1 _
      subst h1
      simp [List.count_cons]
    · rename_i x1 c' cs' hexcl heqq
      injection heqq with h1 h2
      subst h2
      have := ih h
      rw [List.count_cons]
      omega
    · simp at h

/- ===== concrete fixture records ===== -/

/-- The second fixture of tests/test_serialization.py with a page range
added alongside its article number. -/
def refC1 : Ref :=
  { emptyRef with
    id := 2
    authors := chars "P. Richard, H. Tawara"
    title := chars "Systematic study of charge-state ratios"
    journal := chars "Physical Review A"
    volume := chars "76"
    page_start := chars "287"
    page_end := chars "308"
    article_number := chars "012710"
    year := some 2007
    doi := chars "10.1103/physreva.76.012710" }

/-- A saved Ref whose optional text fields are all empty. -/
def refEmptyFields : Ref := { emptyRef with id := 7 }

/- ===== C1 ===== -/

/-- C1 counterexample: a record with article_number, page_start and
page_end all set still gets PageBegin and PageEnd elements in the
xsams_source output; the claimed suppression does not happen there. -/
theorem C1_counterexample :
    refC1.article_number ≠ [] ∧ refC1.page_start ≠ [] ∧ refC1.page_end ≠ [] ∧
    chars "<PageBegin >287</PageBegin>" ∈ xsams_source (chars "N") refC1 ∧
    chars "<PageEnd >308</PageEnd>" ∈ xsams_source (chars "N") refC1 := by
  refine ⟨by decide, by decide, by decide, by decide, by decide⟩

/-- C1 amended: for a Reference with non-empty article_number, page_start
and page_end, the xsams_source output contains the ArticleNumber element
and also the PageBegin and PageEnd elements (no mutual exclusion there;
that suppression lives in the html_article rendering only), while
serialize() includes the page-start, page-end and article-number keys. -/
theorem C1_article_number_and_pages (nodeid : List Char) (r : Ref)
    (han : r.article_number ≠ []) (hps : r.page_start ≠ []) (hpe : r.page_end ≠ []) :
    (chars "<ArticleNumber >" ++ r.article_number ++ chars "</ArticleNumber>")
        ∈ xsams_source nodeid r ∧
    (chars "<PageBegin >" ++ r.page_start ++ chars "</PageBegin>")
        ∈ xsams_source nodeid r ∧
    (chars "<PageEnd >" ++ r.page_end ++ chars "</PageEnd>")
        ∈ xsams_source nodeid r ∧
    chars "article-number" ∈ r.serializeKeys ∧
    chars "page-start" ∈ r.serializeKeys ∧
    chars "page-end" ∈ r.serializeKeys := by
  refine ⟨?_, ?_, ?_, ?_, ?_, ?_⟩
  · simp [xsams_source, make_optional_tag, make_attrs_string, List.intercalate, chars]
  · simp [xsams_source, make_optional_tag, make_attrs_string, List.intercalate, chars]
  · simp [xsams_source, make_optional_tag, make_attrs_string, List.intercalate, chars]
  · have h : add_optional_kv (chars "article-number") r.article_number =
        [(chars "article-number", SVal.s r.article_number)] := by
      simp [add_optional_kv, han]
    simp only [Ref.serializeKeys, Ref.serialize, h, List.map_append, List.mem_append,
      List.mem_map, List.map_cons, List.mem_cons, List.map_nil]
    tauto
  · have h : add_optional_kv (chars "page-start") r.page_start =
        [(chars "page-start", SVal.s r.page_start)] := by
      simp [add_optional_kv, hps]
    simp only [Ref.serializeKeys, Ref.serialize, h, List.map_append, List.mem_append,
      List.mem_map, List.map_cons, List.mem_cons, List.map_nil]
    tauto
  · have h : add_optional_kv (chars "page-end") r.page_end =
        [(chars "page-end", SVal.s r.page_end)] := by
      simp [add_optional_kv, hpe]
    simp only [Ref.serializeKeys, Ref.serialize, h, List.map_append, List.mem_append,
      List.mem_map, List.map_cons, List.mem_cons, List.map_nil]
    tauto

/-- C1 witness: the amended statement evaluated on the concrete record. -/
theorem C1_witness :
    (refC1.article_number ≠ [] ∧ refC1.page_start ≠ [] ∧ refC1.page_end ≠ []) ∧
    ((chars "<ArticleNumber >" ++ refC1.article_number ++ chars "</ArticleNumber>")
        ∈ xsams_source (chars "N") refC1 ∧
      (chars "<PageBegin >" ++ refC1.page_start ++ chars "</PageBegin>")
        ∈ xsams_source (chars "N") refC1 ∧
      (chars "<PageEnd >" ++ refC1.page_end ++ chars "</PageEnd>")
        ∈ xsams_source (chars "N") refC1 ∧
      chars "article-number" ∈ refC1.serializeKeys ∧
      chars "page-start" ∈ refC1.serializeKeys ∧
      chars "page-end" ∈ refC1.serializeKeys) :=
  ⟨⟨by decide, by decide, by decide⟩,
    C1_article_number_and_pages (chars "N") refC1 (by decide) (by decide) (by decide)⟩

/- ===== C2 ===== -/

/-- C2 counterexample: canonicalize_doi removes only one stacked prefix,
so it is not idempotent on a doubly prefixed string. -/
theorem C2_counterexample :
    canonicalize_doi (canonicalize_doi (chars "http://doi.org/http://doi.org/10.1/x")) ≠
      canonicalize_doi (chars "http://doi.org/http://doi.org/10.1/x") := by
  decide

/-- C2 amended: stripping each of the four prefix forms returns exactly the
remainder, and canonicalize_doi is idempotent on every input whose result
does not itself begin with one of the four prefix forms (a single pass
removes at most one prefix). -/
theorem C2_canonicalize_doi (d x : List Char)
    (hx : hasDoiUrlStart (canonicalize_doi x) = false) :
    canonicalize_doi (chars "http://doi.org/" ++ d) = d ∧
    canonicalize_doi (chars "https://doi.org/" ++ d) = d ∧
    canonicalize_doi (chars "http://dx.doi.org/" ++ d) = d ∧
    canonicalize_doi (chars "https://dx.doi.org/" ++ d) = d ∧
    canonicalize_doi (canonicalize_doi x) = canonicalize_doi x := by
  refine ⟨rfl, rfl, rfl, rfl, ?_⟩
  simp only [hasDoiUrlStart, Bool.or_eq_false_iff] at hx
  obtain ⟨⟨⟨h1, h2⟩, h3⟩, h4⟩ := hx
  rw [canonicalize_doi, if_neg (by simp [h1]), if_neg (by simp [h2]),
    if_neg (by simp [h3]), if_neg (by simp [h4])]

/-- C2 witness: prefix stripping and idempotence on a concrete doi. -/
theorem C2_witness :
    hasDoiUrlStart (canonicalize_doi (chars "https://dx.doi.org/10.1/x")) = false ∧
    canonicalize_doi (chars "http://doi.org/" ++ chars "10.1/x") = chars "10.1/x" ∧
    canonicalize_doi (canonicalize_doi (chars "https://dx.doi.org/10.1/x")) =
      canonicalize_doi (chars "https://dx.doi.org/10.1/x") :=
  ⟨by decide,
    (C2_canonicalize_doi (chars "10.1/x") (chars "https://dx.doi.org/10.1/x") (by decide)).1,
    (C2_canonicalize_doi (chars "10.1/x") (chars "https://dx.doi.org/10.1/x") (by decide)).2.2.2.2⟩

/- ===== C3 ===== -/

/-- C3 counterexample: a given name with two tokens keeps its second token
in the produced name; the tokens after the first are not discarded. -/
theorem C3_counterexample :
    get_citeproc_authors [⟨some (chars "smith"), some (chars "Jean Pierre"), none⟩] =
      some (chars "J. Pierre Smith") ∧
    chars "J. Pierre Smith" ≠ chars "J. Smith" := by
  refine ⟨by decide, by decide⟩

/-- C3 amended: for an author with family and given names the produced
string is the whitespace tokens of the given name, the first replaced by
its first character plus a period, space-joined, then a space and the
title-cased family name; family without given gives the title-cased family
alone; no family gives the name field verbatim; the results are joined
with a comma and space. -/
theorem C3_author_normalization (f g nm : List Char) (og : Option (List Char))
    (c0 : Char) (t : List Char) (ts : List (List Char))
    (la : List CpdAuthor) (names : List (List Char))
    (hg : pySplitWhite g = (c0 :: t) :: ts)
    (hla : la.mapM cite_author_name = some names) :
    cite_author_name ⟨some f, some g, og⟩ =
      some (List.intercalate [' '] ((c0 :: chars ".") :: ts) ++ ' ' :: pyTitle f) ∧
    cite_author_name ⟨some f, none, og⟩ = some (pyTitle f) ∧
    cite_author_name ⟨none, og, some nm⟩ = some nm ∧
    get_citeproc_authors la = some (List.intercalate (chars ", ") names) ∧
    get_citeproc_authors [⟨some (chars "richard"), some (chars "P"), none⟩] =
      some (chars "P. Richard") ∧
    get_citeproc_authors [⟨none, none, some (chars "JET contributors")⟩] =
      some (chars "JET contributors") ∧
    get_citeproc_authors [⟨some (chars "Smith"), none, none⟩] = some (chars "Smith") := by
  refine ⟨?_, ?_, ?_, ?_, by decide, by decide, by decide⟩
  · simp [cite_author_name, hg]
  · simp [cite_author_name]
  · simp [cite_author_name]
  · rw [get_citeproc_authors, hla]; rfl

/-- C3 witness: the normalization evaluated on concrete author entries. -/
theorem C3_witness :
    pySplitWhite (chars "Jean Pierre") = ('J' :: chars "ean") :: [chars "Pierre"] ∧
    [(⟨some (chars "smith"), some (chars "Jean Pierre"), none⟩ : CpdAuthor)].mapM
      cite_author_name = some [chars "J. Pierre Smith"] ∧
    cite_author_name ⟨some (chars "smith"), some (chars "Jean Pierre"), none⟩ =
      some (List.intercalate [' ']
        (('J' :: chars ".") :: [chars "Pierre"]) ++ ' ' :: pyTitle (chars "smith")) :=
  ⟨by decide, by decide,
    (C3_author_normalization (chars "smith") (chars "Jean Pierre") [] none
      'J' (chars "ean") [chars "Pierre"]
      [⟨some (chars "smith"), some (chars "Jean Pierre"), none⟩]
      [chars "J. Pierre Smith"] (by decide) (by decide)).1⟩

/- ===== C4 ===== -/

/-- C4 counterexample: an empty-string contents is not replaced by the
default, so a record with an empty title produces an empty Title element,
not the missing-title marker. -/
theorem C4_counterexample :
    make_mandatory_tag (chars "Title") (some []) (chars "[This source does not have a title]") [] =
      chars "<Title ></Title>" ∧
    chars "<Title ></Title>" ≠
      chars "<Title >[This source does not have a title]</Title>" ∧
    chars "<Title ></Title>" ∈ xsams_source (chars "N") refEmptyFields := by
  refine ⟨by decide, by decide, by decide⟩

/-- C4 amended: the mandatory-tag builder substitutes the default only for
an absent (None) contents; a present contents, even empty, is emitted as
the element text, so a Reference with empty title yields an empty Title
element rather than the missing-title marker. -/
theorem C4_mandatory_tag (tag dflt c nodeid : List Char) (r : Ref)
    (ht : r.title = []) :
    make_mandatory_tag tag none dflt [] =
      '<' :: tag ++ chars " >" ++ dflt ++ chars "</" ++ tag ++ chars ">" ∧
    make_mandatory_tag tag (some c) dflt [] =
      '<' :: tag ++ chars " >" ++ c ++ chars "</" ++ tag ++ chars ">" ∧
    chars "<Title ></Title>" ∈ xsams_source nodeid r := by
  refine ⟨?_, ?_, ?_⟩
  · simp [make_mandatory_tag, make_attrs_string, List.intercalate, chars]
  · simp [make_mandatory_tag, make_attrs_string, List.intercalate, chars]
  · have h : make_mandatory_tag (chars "Title") (some (xmlEscape r.title))
        (chars "[This source does not have a title]") [] = chars "<Title ></Title>" := by
      rw [ht]
      decide
    rw [← h]
    simp [xsams_source]

/-- C4 witness: the amended statement on the all-empty record. -/
theorem C4_witness :
    refEmptyFields.title = [] ∧
    make_mandatory_tag (chars "Year") none (chars "9999") [] =
      '<' :: chars "Year" ++ chars " >" ++ chars "9999" ++ chars "</" ++ chars "Year" ++ chars ">" ∧
    chars "<Title ></Title>" ∈ xsams_source (chars "NO") refEmptyFields :=
  ⟨by decide,
    (C4_mandatory_tag (chars "Year") (chars "9999") [] (chars "NO") refEmptyFields rfl).1,
    (C4_mandatory_tag (chars "Year") (chars "9999") [] (chars "NO") refEmptyFields rfl).2.2⟩

/- ===== C5 ===== -/

/-- C5 counterexample: an empty-string contents still produces an element;
only an absent (None) contents is dropped, and the Django string fields
are never None, so empty fields yield empty elements. -/
theorem C5_counterexample :
    make_optional_tag (chars "Volume") (some []) [] = chars "<Volume ></Volume>" ∧
    chars "<Volume ></Volume>" ≠ [] ∧
    chars "<SourceName ></SourceName>" ∈ xsams_source (chars "N") refEmptyFields ∧
    chars "<Volume ></Volume>" ∈ xsams_source (chars "N") refEmptyFields := by
  refine ⟨by decide, by decide, by decide, by decide⟩

/-- C5 amended: the optional-tag builder emits nothing only for an absent
(None) contents; a Reference with empty journal, volume, page_start,
page_end, article_number, url or doi produces the corresponding element
with empty text content. -/
theorem C5_optional_tag (tag nodeid : List Char)
    (attrs : List (List Char × List Char)) (r : Ref)
    (hj : r.journal = []) (hv : r.volume = []) (hps : r.page_start = [])
    (hpe : r.page_end = []) (han : r.article_number = []) (hu : r.url = [])
    (hd : r.doi = []) :
    make_optional_tag tag none attrs = [] ∧
    chars "<SourceName ></SourceName>" ∈ xsams_source nodeid r ∧
    chars "<Volume ></Volume>" ∈ xsams_source nodeid r ∧
    chars "<PageBegin ></PageBegin>" ∈ xsams_source nodeid r ∧
    chars "<PageEnd ></PageEnd>" ∈ xsams_source nodeid r ∧
    chars "<ArticleNumber ></ArticleNumber>" ∈ xsams_source nodeid r ∧
    chars "<UniformResourceIdentifier ></UniformResourceIdentifier>"
      ∈ xsams_source nodeid r ∧
    chars "<DigitalObjectIdentifier ></DigitalObjectIdentifier>"
      ∈ xsams_source nodeid r := by
  refine ⟨rfl, ?_, ?_, ?_, ?_, ?_, ?_, ?_⟩
  · have h : make_optional_tag (chars "SourceName") (some (replaceAmpByAnd r.journal)) [] =
        chars "<SourceName ></SourceName>" := by rw [hj]; decide
    rw [← h]; simp [xsams_source]
  · have h : make_optional_tag (chars "Volume") (some r.volume) [] =
        chars "<Volume ></Volume>" := by rw [hv]; decide
    rw [← h]; simp [xsams_source]
  · have h : make_optional_tag (chars "PageBegin") (some r.page_start) [] =
        chars "<PageBegin ></PageBegin>" := by rw [hps]; decide
    rw [← h]; simp [xsams_source]
  · have h : make_optional_tag (chars "PageEnd") (some r.page_end) [] =
        chars "<PageEnd ></PageEnd>" := by rw [hpe]; decide
    rw [← h]; simp [xsams_source]
  · have h : make_optional_tag (chars "ArticleNumber") (some r.article_number) [] =
        chars "<ArticleNumber ></ArticleNumber>" := by rw [han]; decide
    rw [← h]; simp [xsams_source]
  · have h : make_optional_tag (chars "UniformResourceIdentifier") (some (pyQuote r.url)) [] =
        chars "<UniformResourceIdentifier ></UniformResourceIdentifier>" := by
      rw [hu]; decide
    rw [← h]; simp [xsams_source]
  · have h : make_optional_tag (chars "DigitalObjectIdentifier") (some r.doi) [] =
        chars "<DigitalObjectIdentifier ></DigitalObjectIdentifier>" := by
      rw [hd]; decide
    rw [← h]; simp [xsams_source]

/-- C5 witness: the amended statement on the all-empty record. -/
theorem C5_witness :
    (refEmptyFields.journal = [] ∧ refEmptyFields.volume = [] ∧
      refEmptyFields.page_start = [] ∧ refEmptyFields.page_end = [] ∧
      refEmptyFields.article_number = [] ∧ refEmptyFields.url = [] ∧
      refEmptyFields.doi = []) ∧
    chars "<PageBegin ></PageBegin>" ∈ xsams_source (chars "NO") refEmptyFields :=
  ⟨⟨rfl, rfl, rfl, rfl, rfl, rfl, rfl⟩,
    (C5_optional_tag (chars "Volume") (chars "NO") [] refEmptyFields
      rfl rfl rfl rfl rfl rfl rfl).2.2.2.1⟩

/- ===== C6 ===== -/

/-- Helper: a string with no double hyphen splits on the double hyphen
into the single fragment holding the whole string. -/
theorem splitDD_of_no_dd (s : List Char) (h : hasDoubleHyphen s = false) :
    splitDoubleHyphen s = [s] := by
  induction s with
  | nil => rfl
  | cons c cs ih =>
    unfold hasDoubleHyphen at h
    split at h
    · exact absurd h (by simp)
    · rename_i x1 c' cs' hexcl heqq
      injection heqq with h1 h2
      subst h1
      subst h2
      have hcs := ih h
      unfold splitDoubleHyphen
      split
      · rename_i t heq
        injection heq with e1 e2
        exact (hexcl t e1 e2).elim
      · rename_i x2 c2 cs2 hexcl2 heq2
        injection heq2 with e1 e2
        subst e1
        subst e2
        rw [hcs]
      · rename_i heq
        exact absurd heq (by simp)
    · rename_i heq
      exact absurd heq (by simp)

/-- Helper: the double-hyphen branch of parse_pages when the split has
exactly two fragments. -/
theorem parse_pages_dd_eq (s a b : List Char) (hdd : hasDoubleHyphen s = true)
    (hsp : splitDoubleHyphen s = [a, b]) : parse_pages s = some (a, b) := by
  have hne : s ≠ [] := by
    intro he; subst he; simp [hasDoubleHyphen] at hdd
  rw [parse_pages, if_neg hne, if_pos hdd, hsp]

/-- Helper: with three or more double-hyphen fragments (two or more
double-hyphen occurrences) the two-name unpacking of parse_pages fails. -/
theorem parse_pages_multi_dd (s : List Char)
    (hlen : 3 ≤ (splitDoubleHyphen s).length) : parse_pages s = none := by
  have hdd : hasDoubleHyphen s = true := by
    cases hd : hasDoubleHyphen s
    · rw [splitDD_of_no_dd s hd] at hlen
      simp at hlen
    · rfl
  have hne : s ≠ [] := by
    intro he; subst he; simp [hasDoubleHyphen] at hdd
  obtain ⟨x, y, z, rest, hsp⟩ :
      ∃ x y z rest, splitDoubleHyphen s = x :: y :: z :: rest := by
    cases h1 : splitDoubleHyphen s with
    | nil => rw [h1] at hlen; simp at hlen
    | cons x t1 =>
      cases t1 with
      | nil => rw [h1] at hlen; simp at hlen
      | cons y t2 =>
        cases t2 with
        | nil => rw [h1] at hlen; simp at hlen
        | cons z rest => exact ⟨x, y, z, rest, rfl⟩
  rw [parse_pages, if_neg hne, if_pos hdd, hsp]

/-- Helper: with no double hyphen and an even hyphen count no split is
attempted and the page end stays empty. -/
theorem parse_pages_even_eq (s : List Char) (hdd : hasDoubleHyphen s = false)
    (heven : s.count '-' % 2 = 0) : parse_pages s = some (s, []) := by
  by_cases hne : s = []
  · subst hne; rfl
  · have hodd : ¬ s.count '-' % 2 = 1 := by omega
    simp only [parse_pages, if_neg hne, hdd, Bool.false_eq_true, if_false, hodd]

/-- Helper: a hyphen-free page string is passed through with empty end. -/
theorem parse_pages_zero_eq (s : List Char) (h : s.count '-' = 0) :
    parse_pages s = some (s, []) := by
  have hdd : hasDoubleHyphen s = false := by
    cases hd : hasDoubleHyphen s
    · rfl
    · have := count_pos_of_hasDD s hd; omega
  exact parse_pages_even_eq s hdd (by omega)

/-- C6 counterexample: a page string with two double hyphens makes the
two-name unpacking of the double-hyphen split fail instead of producing a
page pair. -/
theorem C6_counterexample :
    hasDoubleHyphen (chars "1--2--3") = true ∧
    parse_pages (chars "1--2--3") = none := by
  refine ⟨by decide, by decide⟩

/-- C6 amended: when the double-hyphen split yields exactly two fragments
they become the page pair, while two or more double-hyphen occurrences
(three or more fragments) make the parse fail; with no double hyphen and
an odd hyphen count the string is split at its middle hyphen, the
fragments on either side rejoined with single hyphens (each half carrying
half of the hyphens); with no double hyphen and an even hyphen count,
zero included, no split is attempted and the page end stays empty. -/
theorem C6_page_range_parsing (s a b : List Char) :
    (hasDoubleHyphen s = true → splitDoubleHyphen s = [a, b] →
      parse_pages s = some (a, b)) ∧
    (3 ≤ (splitDoubleHyphen s).length → parse_pages s = none) ∧
    (hasDoubleHyphen s = false → s.count '-' % 2 = 1 →
      ∃ p q, parse_pages s = some (p, q) ∧ p ++ '-' :: q = s ∧
        p.count '-' = s.count '-' / 2 ∧ q.count '-' = s.count '-' / 2) ∧
    (hasDoubleHyphen s = false → s.count '-' % 2 = 0 →
      parse_pages s = some (s, [])) ∧
    (s.count '-' = 0 → parse_pages s = some (s, [])) ∧
    parse_pages (chars "3881-3898") = some (chars "3881", chars "3898") ∧
    parse_pages (chars "L123--L130") = some (chars "L123", chars "L130") ∧
    parse_pages (chars "A-1-2") = some (chars "A-1-2", []) := by
  refine ⟨fun hdd hsp => parse_pages_dd_eq s a b hdd hsp,
    fun hlen => parse_pages_multi_dd s hlen, ?_,
    fun hdd heven => parse_pages_even_eq s hdd heven,
    fun h => parse_pages_zero_eq s h, by decide, by decide, by decide⟩
  intro hdd hodd
  have hne : s ≠ [] := by
    intro he; subst he; simp at hodd
  have hpos : 0 < s.count '-' := by omega
  have hlen : (s.splitOn '-').length = s.count '-' + 1 := length_splitOn '-' s
  have hk2 : s.count '-' / 2 + 1 < (s.splitOn '-').length := by omega
  refine ⟨List.intercalate ['-'] ((s.splitOn '-').take (s.count '-' / 2 + 1)),
    List.intercalate ['-'] ((s.splitOn '-').drop (s.count '-' / 2 + 1)), ?_, ?_, ?_, ?_⟩
  · simp only [parse_pages, if_neg hne, hdd, Bool.false_eq_true, if_false, hodd, if_pos]
  · have hj := intercalate_take_drop '-' (s.splitOn '-') (s.count '-' / 2 + 1)
      (Nat.succ_pos _) hk2
    rw [intercalate_splitOn_eq] at hj
    exact hj
  · have htl : ((s.splitOn '-').take (s.count '-' / 2 + 1)).length =
        s.count '-' / 2 + 1 := by
      rw [List.length_take]; omega
    have hne2 : (s.splitOn '-').take (s.count '-' / 2 + 1) ≠ [] := by
      intro h0
      rw [h0] at htl
      simp at htl
    have := count_intercalate '-' ((s.splitOn '-').take (s.count '-' / 2 + 1)) hne2
      (fun l hl => splitOn_sep_not_mem '-' s l (List.take_subset _ _ hl))
    omega
  · have htl : ((s.splitOn '-').drop (s.count '-' / 2 + 1)).length =
        s.count '-' - s.count '-' / 2 := by
      rw [List.length_drop]; omega
    have hne2 : (s.splitOn '-').drop (s.count '-' / 2 + 1) ≠ [] := by
      intro h0
      rw [h0] at htl
      simp at htl
      omega
    have := count_intercalate '-' ((s.splitOn '-').drop (s.count '-' / 2 + 1)) hne2
      (fun l hl => splitOn_sep_not_mem '-' s l (List.drop_subset _ _ hl))
    omega

/-- C6 witness: every branch evaluated on a concrete page string: a
single double hyphen, two double hyphens, an odd hyphen count, an even
non-zero hyphen count, and no hyphen at all. -/
theorem C6_witness :
    hasDoubleHyphen (chars "L123--L130") = true ∧
    splitDoubleHyphen (chars "L123--L130") = [chars "L123", chars "L130"] ∧
    parse_pages (chars "L123--L130") = some (chars "L123", chars "L130") ∧
    3 ≤ (splitDoubleHyphen (chars "1--2--3")).length ∧
    parse_pages (chars "1--2--3") = none ∧
    (∃ p q, parse_pages (chars "3881-3898") = some (p, q) ∧
      p ++ '-' :: q = chars "3881-3898" ∧
      p.count '-' = (chars "3881-3898").count '-' / 2 ∧
      q.count '-' = (chars "3881-3898").count '-' / 2) ∧
    (hasDoubleHyphen (chars "A-1-2") = false ∧
      (chars "A-1-2").count '-' % 2 = 0 ∧
      parse_pages (chars "A-1-2") = some (chars "A-1-2", [])) ∧
    parse_pages (chars "287") = some (chars "287", []) :=
  ⟨by decide, by decide,
    (C6_page_range_parsing (chars "L123--L130") (chars "L123") (chars "L130")).1
      (by decide) (by decide),
    by decide,
    (C6_page_range_parsing (chars "1--2--3") [] []).2.1 (by decide),
    (C6_page_range_parsing (chars "3881-3898") [] []).2.2.1 (by decide) (by decide),
    ⟨by decide, by decide,
      (C6_page_range_parsing (chars "A-1-2") [] []).2.2.2.1 (by decide) (by decide)⟩,
    (C6_page_range_parsing (chars "287") [] []).2.2.2.2.1 (by decide)⟩

/- ===== C7 ===== -/

/-- A Ref with the two-name authors string of the claim. -/
def refAB : Ref := { emptyRef with authors := chars "A, B" }

/-- A Ref with seven comma-separated author names. -/
def refSeven : Ref :=
  { emptyRef with
    authors := chars "A. One, B. Two, C. Three, D. Four, E. Five, F. Six, G. Seven" }

/-- C7 counterexample: the comma-split fragments keep their leading space,
so the two-name string produces a double space around the conjunction. -/
theorem C7_counterexample :
    refAB.authors = chars "A, B" ∧
    refAB.shorten_authors (some 5) 1 = chars "A and  B" ∧
    chars "A and  B" ≠ chars "A and B" := by
  refine ⟨by decide, by decide, by decide⟩

/-- C7 amended: an unbounded nmax returns the full string; an empty or
single-fragment authors string is returned as-is; above nmax the first
nret comma-split fragments (whitespace kept) are joined and suffixed with
et al.; otherwise all fragments but the last are joined, then the word and,
then the last fragment with its leading space kept, so the string A comma
space B renders with two spaces after the conjunction. -/
theorem C7_shorten_authors (r : Ref) (m nret : Nat) :
    r.shorten_authors none nret = r.authors ∧
    (r.authors = [] → r.shorten_authors (some m) nret = []) ∧
    ((r.authors.splitOn ',').length = 1 → r.shorten_authors (some m) nret = r.authors) ∧
    (r.authors ≠ [] → 2 ≤ (r.authors.splitOn ',').length →
      (r.authors.splitOn ',').length > m →
      r.shorten_authors (some m) nret =
        List.intercalate (chars ", ") ((r.authors.splitOn ',').take nret) ++
          chars " et al.") ∧
    (r.authors ≠ [] → 2 ≤ (r.authors.splitOn ',').length →
      (r.authors.splitOn ',').length ≤ m →
      r.shorten_authors (some m) nret =
        List.intercalate (chars ", ")
            ((r.authors.splitOn ',').take ((r.authors.splitOn ',').length - 1)) ++
          chars " and " ++ (r.authors.splitOn ',').getLastD []) ∧
    refSeven.shorten_authors (some 5) 1 = chars "A. One et al." ∧
    refAB.shorten_authors (some 5) 1 = chars "A and  B" := by
  refine ⟨rfl, ?_, ?_, ?_, ?_, by decide, by decide⟩
  · intro h
    simp [Ref.shorten_authors, h]
  · intro h1
    by_cases he : r.authors = []
    · simp [Ref.shorten_authors, he]
    · simp [Ref.shorten_authors, he, h1]
  · intro hne h2 hgt
    have h1 : (r.authors.splitOn ',').length ≠ 1 := by omega
    simp [Ref.shorten_authors, hne, h1, hgt]
  · intro hne h2 hle
    have h1 : (r.authors.splitOn ',').length ≠ 1 := by omega
    have hgt : ¬ (r.authors.splitOn ',').length > m := by omega
    simp [Ref.shorten_authors, hne, h1, hgt]

/-- C7 witness: the truncation branches on the concrete fixtures. -/
theorem C7_witness :
    refAB.authors ≠ [] ∧ 2 ≤ (refAB.authors.splitOn ',').length ∧
    (refAB.authors.splitOn ',').length ≤ 5 ∧
    refAB.shorten_authors (some 5) 1 =
      List.intercalate (chars ", ")
          ((refAB.authors.splitOn ',').take ((refAB.authors.splitOn ',').length - 1)) ++
        chars " and " ++ (refAB.authors.splitOn ',').getLastD [] :=
  ⟨by decide, by decide, by decide,
    (C7_shorten_authors refAB 5 1).2.2.2.2.1 (by decide) (by decide) (by decide)⟩

/- ===== C8 ===== -/

/-- First of the two records of the two-source claim. -/
def refPair1 : Ref :=
  { emptyRef with
    id := 1
    authors := chars "S. Niyonzima"
    title := chars "Low-energy collisions"
    year := some 2017 }

/-- Second of the two records of the two-source claim. -/
def refPair2 : Ref :=
  { emptyRef with
    id := 2
    authors := chars "P. Richard"
    title := chars "Systematic study"
    year := some 2007 }

/-- C8: make_xsams_id builds B, node id, hyphen, number, but the legacy
generator copy appends a stray letter s to the id inside the Source open
tag; the packaged generator copy emits the id unchanged.  The Sources
fragment holds exactly the two Source open tags, in input order. -/
theorem C8_source_id_bug :
    make_xsams_id (chars "NODE") (chars "B") 1 = chars "BNODE-1" ∧
    make_xsams_id (chars "NODE") (chars "B") 2 = chars "BNODE-2" ∧
    (xsams_sources_legacy (chars "NODE") [refPair1, refPair2]).filter
        (fun c => startsWith (chars "<Source sourceID") c) =
      [chars "<Source sourceID=\"BNODE-1s\">", chars "<Source sourceID=\"BNODE-2s\">"] ∧
    (xsams_sources (chars "NODE") [refPair1, refPair2]).filter
        (fun c => startsWith (chars "<Source sourceID") c) =
      [chars "<Source sourceID=\"BNODE-1\">", chars "<Source sourceID=\"BNODE-2\">"] ∧
    chars "<Source sourceID=\"BNODE-1s\">" ≠ chars "<Source sourceID=\"BNODE-1\">" := by
  refine ⟨by decide, by decide, by decide, by decide, by decide⟩

/- ===== C9 ===== -/

/-- A Ref whose authors string carries surrounding whitespace. -/
def refSpaced : Ref := { emptyRef with authors := chars " A. One , B. Two " }

/-- Characters of a stripped string come from the original string. -/
theorem mem_of_mem_pyStrip (c : Char) (s : List Char) (h : c ∈ pyStrip s) : c ∈ s := by
  unfold pyStrip at h
  have h1 := List.Sublist.subset (List.dropWhile_sublist Char.isWhitespace) h
  rw [List.mem_reverse] at h1
  have h2 := List.Sublist.subset (List.dropWhile_sublist Char.isWhitespace) h1
  rw [List.mem_reverse] at h2
  exact h2

/-- C9 counterexample: an empty authors string yields the one-entry list
holding the empty string, not the empty list. -/
theorem C9_counterexample :
    emptyRef.authors = [] ∧
    emptyRef.authors_list = [[]] ∧
    emptyRef.authors_list ≠ ([] : List (List Char)) := by
  refine ⟨by decide, by decide, by decide⟩

/-- C9 amended: authors_list splits on commas into comma-count-plus-one
stripped entries, none containing a comma; an empty authors string gives
the singleton list of the empty entry rather than the empty list. -/
theorem C9_authors_list (r : Ref) :
    r.authors_list.length = r.authors.count ',' + 1 ∧
    (∀ e ∈ r.authors_list, ',' ∉ e) ∧
    (r.authors = [] → r.authors_list = [[]]) ∧
    refSpaced.authors_list = [chars "A. One", chars "B. Two"] := by
  refine ⟨?_, ?_, ?_, by decide⟩
  · simp [Ref.authors_list, length_splitOn]
  · intro e he
    obtain ⟨f, hf, rfl⟩ := List.mem_map.mp he
    intro hc
    exact splitOn_sep_not_mem ',' r.authors f hf (mem_of_mem_pyStrip ',' f hc)
  · intro h
    rw [Ref.authors_list, h]
    decide

/-- C9 witness: the split evaluated on the empty and the spaced fixture. -/
theorem C9_witness :
    emptyRef.authors_list = [[]] ∧
    refSpaced.authors_list = [chars "A. One", chars "B. Two"] :=
  ⟨(C9_authors_list emptyRef).2.2.1 rfl, (C9_authors_list refSpaced).2.2.2⟩

/- ===== C10 ===== -/

/-- C10: a citeproc document with no URL field stores exactly the literal
https:// scheme as the record url, which is non-empty, so the html url
choice takes the url branch and the doi-derived fallback is never used for
pipeline-created records. -/
theorem C10_absent_url (cpd : Cpd) (ref0 : Option Ref) (r : Ref)
    (hu : cpd.url = none) (hp : parse_citeproc_json cpd ref0 = some r) :
    r.url = chars "https://" ∧ r.url ≠ [] ∧
    pyOr r.make_url_html r.make_url_html_from_doi = r.make_url_html ∧
    r.make_url_html ≠ [] ∧
    ensure_https [] = chars "https://" := by
  have hurl : r.url = chars "https://" := by
    rw [parse_citeproc_json] at hp
    split at hp
    · exact absurd hp (by simp)
    · split at hp
      · exact absurd hp (by simp)
      · split at hp
        · exact absurd hp (by simp)
        · rename_i authors hps ps pe hpp
          have := Option.some.inj hp
          rw [← this, hu]
          rfl
  have hne : r.url ≠ [] := by rw [hurl]; decide
  have hmu : r.make_url_html ≠ [] := by
    rw [Ref.make_url_html, Ref.make_url_html_with, if_pos hne]
    simp [chars]
  refine ⟨hurl, hne, ?_, hmu, by decide⟩
  rw [pyOr, if_neg hmu]

/-- The synthetic citeproc document of the specification, with no URL. -/
def cpdSynthetic : Cpd :=
  ⟨chars "article-journal", none, some (chars "T\nX"), none, none, none,
   none, some (chars "10.1/x"), none, some [[2001]]⟩

/-- The record parsed from the synthetic document. -/
def refSynthetic : Ref :=
  { emptyRef with
    title := chars "T X"
    doi := chars "10.1/x"
    url := chars "https://"
    year := some 2001 }

/-- C10 witness: the parse of the synthetic document stores the bare
https scheme and the display logic keeps the url branch. -/
theorem C10_witness :
    cpdSynthetic.url = none ∧
    parse_citeproc_json cpdSynthetic none = some refSynthetic ∧
    (refSynthetic.url = chars "https://" ∧ refSynthetic.url ≠ [] ∧
      pyOr refSynthetic.make_url_html refSynthetic.make_url_html_from_doi =
        refSynthetic.make_url_html ∧
      refSynthetic.make_url_html ≠ [] ∧
      ensure_https [] = chars "https://") :=
  ⟨rfl, by decide, C10_absent_url cpdSynthetic none refSynthetic rfl (by decide)⟩
